import Mathlib

/-!
Formal model of the KubeLite reconciliation core: the container runtime
client registry, the orchestrator's reconcile loop, the desired-state
store, the intent translator and the failure classifier, embedded
shallowly from the TypeScript sources.  JavaScript `Date` values are
modelled as natural numbers (milliseconds), JS objects used as string
maps are modelled as association lists, and JS falsy checks on strings
and numbers are made explicit.
-/

/-- Container status values of the `NosanaContainer` interface. -/
inductive ContainerStatus
  | pending
  | running
  | stopped
  | failed
deriving DecidableEq

/-- The `NosanaContainer` record.  `createdAt` models the JS `Date` via its
millisecond timestamp (`getTime`); the optional `labels` record is an
association list, the absent field being the empty list. -/
structure NosanaContainer where
  id : String
  name : String
  image : String
  status : ContainerStatus
  createdAt : Nat
  labels : List (String × String) := []
deriving DecidableEq

/-- JS property lookup on an object modelled as an association list. -/
def getLabel (ls : List (String × String)) (k : String) : Option String :=
  (ls.find? (fun p => p.1 == k)).map (fun p => p.2)

/-- JS object-spread override: spreading an object and then writing key `k`
with value `v` yields an object whose binding for `k` is `v` and whose other
bindings are unchanged. -/
def setLabel (ls : List (String × String)) (k v : String) : List (String × String) :=
  ls.filter (fun p => p.1 != k) ++ [(k, v)]

/-- The label set attached by `NosanaClient.deployContainer`: the caller's
labels overridden with the fixed pairs kubelite.managed = true and
kubelite.app = name. -/
def deployLabels (labels : List (String × String)) (name : String) :
    List (String × String) :=
  setLabel (setLabel labels "kubelite.managed" "true") "kubelite.app" name

/-- `NosanaClient.getContainersByApp`: the registry entries whose
kubelite.app label equals the requested application name. -/
def getContainersByApp (containers : List NosanaContainer) (appName : String) :
    List NosanaContainer :=
  containers.filter (fun c => getLabel c.labels "kubelite.app" == some appName)

/-- The `AutoscalingConfig` interface (carried through, never enforced). -/
structure AutoscalingConfig where
  enabled : Bool
  minReplicas : Nat
  maxReplicas : Nat
  targetCpuUtilization : Nat
deriving DecidableEq

/-- The `KubeLiteApp` interface. -/
structure KubeLiteApp where
  name : String
  image : String
  replicas : Nat
  ports : Option (List Nat) := none
  autoscaling : Option AutoscalingConfig := none
deriving DecidableEq

/-- The comparator used by `reconcileApp` when scaling down:
sort ascending by creation time. -/
def createdLE (a b : NosanaContainer) : Prop :=
  a.createdAt ≤ b.createdAt

instance : DecidableRel createdLE :=
  fun a b => Nat.decLe a.createdAt b.createdAt

instance : IsTotal NosanaContainer createdLE :=
  ⟨fun a b => Nat.le_total a.createdAt b.createdAt⟩

instance : IsTrans NosanaContainer createdLE :=
  ⟨fun _ _ _ hab hbc => Nat.le_trans hab hbc⟩

/-- The in-place `sort` on the current containers in
`KubeLiteOrchestrator.reconcileApp`, modelled by a stable sort with the
same ascending-creation-time order. -/
def sortByCreatedAt (cs : List NosanaContainer) : List NosanaContainer :=
  List.insertionSort createdLE cs

/-- The corrective runtime calls issued by one `reconcileApp` run:
how many `deployContainer` calls, and which containers are passed to
`stopContainer`, in order. -/
structure ReconcileOps where
  creates : Nat
  stops : List NosanaContainer
deriving DecidableEq

/-- `KubeLiteOrchestrator.reconcileApp`: compare current replicas against
`desiredApp.replicas`; scale up by deploying the difference, scale down by
stopping the oldest containers first (sort ascending by `createdAt`, then
`slice(0, toRemove)`), otherwise do nothing. -/
def reconcileApp (desiredApp : KubeLiteApp) (currentContainers : List NosanaContainer) :
    ReconcileOps :=
  let currentReplicas := currentContainers.length
  let desiredReplicas := desiredApp.replicas
  if currentReplicas < desiredReplicas then
    { creates := desiredReplicas - currentReplicas, stops := [] }
  else if desiredReplicas < currentReplicas then
    let toRemove := currentReplicas - desiredReplicas
    { creates := 0, stops := (sortByCreatedAt currentContainers).take toRemove }
  else
    { creates := 0, stops := [] }

/-- Elements of the front of a list are distinct (under `f`) from elements of
the back, when `f` is injective on the list. -/
lemma map_take_disjoint_drop {α β : Type} [DecidableEq β] (f : α → β)
    (t : List α) (k : Nat) (h : (t.map f).Nodup) {d : α} (hd : d ∈ t.drop k) :
    f d ∉ (t.take k).map f := by
  have h2 : ((t.take k).map f ++ (t.drop k).map f).Nodup := by
    rw [← List.map_append, List.take_append_drop]
    exact h
  have hdisj := (List.nodup_append.mp h2).2.2
  intro hmem
  exact hdisj hmem (List.mem_map_of_mem f hd)

/-- **C1.** When the desired replica count is strictly below the observed
container count, `reconcileApp` issues no creates, issues exactly
`actual - desired` stop requests, every stopped container is one of the
observed containers, and (for pairwise-distinct creation timestamps) every
stopped container is strictly older than every observed container that is
not stopped — i.e. exactly the oldest `actual - desired` containers are
stopped and no others. -/
theorem reconcile_scale_down_stops_oldest (app : KubeLiteApp)
    (cs : List NosanaContainer)
    (hdistinct : (cs.map (fun c => c.createdAt)).Nodup)
    (hlt : app.replicas < cs.length) :
    (reconcileApp app cs).creates = 0 ∧
    (reconcileApp app cs).stops.length = cs.length - app.replicas ∧
    (∀ c ∈ (reconcileApp app cs).stops, c ∈ cs) ∧
    (∀ c ∈ (reconcileApp app cs).stops, ∀ d ∈ cs,
      d ∉ (reconcileApp app cs).stops → c.createdAt < d.createdAt) := by
  have hops : reconcileApp app cs =
      { creates := 0,
        stops := (sortByCreatedAt cs).take (cs.length - app.replicas) } := by
    unfold reconcileApp
    rw [if_neg (by omega), if_pos hlt]
  rw [hops]
  set t := sortByCreatedAt cs with ht
  set k := cs.length - app.replicas with hk
  have hperm : List.Perm t cs := List.perm_insertionSort createdLE cs
  have hlen : t.length = cs.length := hperm.length_eq
  have hnd : (t.map (fun c => c.createdAt)).Nodup :=
    ((hperm.map (fun c => c.createdAt)).nodup_iff).mpr hdistinct
  refine ⟨rfl, ?_, ?_, ?_⟩
  · show (t.take k).length = k
    rw [List.length_take, hlen]
    omega
  · intro c hc
    exact hperm.mem_iff.mp (List.mem_of_mem_take hc)
  · intro c hc d hd hdns
    have hdt : d ∈ t := hperm.mem_iff.mpr hd
    have hdt' : d ∈ t.take k ++ t.drop k := by
      rwa [List.take_append_drop]
    have hddrop : d ∈ t.drop k := by
      rcases List.mem_append.mp hdt' with h | h
      · exact absurd h hdns
      · exact h
    have hsorted : List.Pairwise createdLE (t.take k ++ t.drop k) := by
      rw [List.take_append_drop]
      exact List.sorted_insertionSort createdLE cs
    have hle : createdLE c d :=
      (List.pairwise_append.mp hsorted).2.2 c hc d hddrop
    have hne : c.createdAt ≠ d.createdAt := by
      intro heq
      have hcm : c.createdAt ∈ (t.take k).map (fun c => c.createdAt) :=
        List.mem_map_of_mem (fun c => c.createdAt) hc
      rw [heq] at hcm
      exact map_take_disjoint_drop (fun c => c.createdAt) t k hnd hddrop hcm
    exact Nat.lt_of_le_of_ne hle hne

/-- Concrete oldest container (timestamp 1) for the three-container scenario. -/
def demoOldest : NosanaContainer :=
  { id := "b", name := "kubelite-web-2", image := "nginx", status := ContainerStatus.running,
    createdAt := 1, labels := deployLabels [] "web" }

/-- Concrete middle container (timestamp 2). -/
def demoMiddle : NosanaContainer :=
  { id := "c", name := "kubelite-web-3", image := "nginx", status := ContainerStatus.running,
    createdAt := 2, labels := deployLabels [] "web" }

/-- Concrete newest container (timestamp 3). -/
def demoNewest : NosanaContainer :=
  { id := "a", name := "kubelite-web-1", image := "nginx", status := ContainerStatus.running,
    createdAt := 3, labels := deployLabels [] "web" }

/-- Concrete desired application: two replicas of nginx. -/
def demoApp : KubeLiteApp := { name := "web", image := "nginx", replicas := 2 }

/-- Witness for C1: with three containers of timestamps 1 < 2 < 3 and one
removal required, the hypotheses hold and exactly the oldest container
(timestamp 1) is stopped. -/
theorem reconcile_scale_down_stops_oldest_witness :
    ((([demoNewest, demoOldest, demoMiddle].map (fun c => c.createdAt)).Nodup ∧
      demoApp.replicas < ([demoNewest, demoOldest, demoMiddle] : List NosanaContainer).length) ∧
     ((reconcileApp demoApp [demoNewest, demoOldest, demoMiddle]).creates = 0 ∧
      (reconcileApp demoApp [demoNewest, demoOldest, demoMiddle]).stops.length =
        ([demoNewest, demoOldest, demoMiddle] : List NosanaContainer).length - demoApp.replicas ∧
      (∀ c ∈ (reconcileApp demoApp [demoNewest, demoOldest, demoMiddle]).stops,
        c ∈ [demoNewest, demoOldest, demoMiddle]) ∧
      (∀ c ∈ (reconcileApp demoApp [demoNewest, demoOldest, demoMiddle]).stops,
        ∀ d ∈ [demoNewest, demoOldest, demoMiddle],
          d ∉ (reconcileApp demoApp [demoNewest, demoOldest, demoMiddle]).stops →
            c.createdAt < d.createdAt)) ∧
     (reconcileApp demoApp [demoNewest, demoOldest, demoMiddle]).stops = [demoOldest]) :=
  ⟨⟨by decide, by decide⟩,
   reconcile_scale_down_stops_oldest demoApp [demoNewest, demoOldest, demoMiddle]
     (by decide) (by decide),
   by decide⟩

/-- `reconcileApp`, scale-up branch. -/
lemma reconcileApp_scale_up (app : KubeLiteApp) (cs : List NosanaContainer)
    (h : cs.length < app.replicas) :
    reconcileApp app cs = { creates := app.replicas - cs.length, stops := [] } := by
  unfold reconcileApp
  rw [if_pos h]

/-- `reconcileApp`, scale-down branch. -/
lemma reconcileApp_scale_down (app : KubeLiteApp) (cs : List NosanaContainer)
    (h : app.replicas < cs.length) :
    reconcileApp app cs =
      { creates := 0,
        stops := (sortByCreatedAt cs).take (cs.length - app.replicas) } := by
  unfold reconcileApp
  rw [if_neg (by omega), if_pos h]

/-- `reconcileApp`, in-sync branch: no corrective calls. -/
lemma reconcileApp_in_sync (app : KubeLiteApp) (cs : List NosanaContainer)
    (h : cs.length = app.replicas) :
    reconcileApp app cs = { creates := 0, stops := [] } := by
  unfold reconcileApp
  rw [if_neg (by omega), if_neg (by omega)]

/-- Selecting an application's containers commutes with any registry filter. -/
lemma getContainersByApp_filter (s : List NosanaContainer) (name : String)
    (p : NosanaContainer → Bool) :
    getContainersByApp (s.filter p) name = (getContainersByApp s name).filter p := by
  unfold getContainersByApp
  rw [List.filter_filter, List.filter_filter]
  apply List.filter_congr
  intro c _
  exact Bool.and_comm _ _

/-- Removing from a duplicate-free registry the ids of the first `k`
containers of its sorted order removes exactly `k` containers. -/
lemma length_filter_remove_sorted_take (l : List NosanaContainer) (k : Nat)
    (hnd : (l.map (fun c => c.id)).Nodup) :
    (l.filter (fun c =>
      !((((sortByCreatedAt l).take k).map (fun c => c.id)).contains c.id))).length
      = l.length - k := by
  set t := sortByCreatedAt l with ht
  set p : NosanaContainer → Bool :=
    fun c => !(((t.take k).map (fun c => c.id)).contains c.id) with hp
  have hperm : List.Perm t l := List.perm_insertionSort createdLE l
  have hndt : (t.map (fun c => c.id)).Nodup :=
    ((hperm.map (fun c => c.id)).nodup_iff).mpr hnd
  have hcount : (l.filter p).length = (t.filter p).length := by
    rw [← List.countP_eq_length_filter, ← List.countP_eq_length_filter]
    exact (hperm.countP_eq p).symm
  have hsplit : t.filter p = (t.take k).filter p ++ (t.drop k).filter p := by
    rw [← List.filter_append, List.take_append_drop]
  have h1 : (t.take k).filter p = [] := by
    apply List.filter_eq_nil_iff.mpr
    intro c hc
    have : c.id ∈ (t.take k).map (fun c => c.id) :=
      List.mem_map_of_mem (fun c => c.id) hc
    simp only [hp, Bool.not_eq_true', Bool.not_eq_false]
    exact List.elem_iff.mpr this
  have h2 : (t.drop k).filter p = t.drop k := by
    apply List.filter_eq_self.mpr
    intro c hc
    have : c.id ∉ (t.take k).map (fun c => c.id) :=
      map_take_disjoint_drop (fun c => c.id) t k hndt hc
    simp only [hp, Bool.not_eq_true']
    cases hco : ((t.take k).map (fun c => c.id)).contains c.id with
    | false => rfl
    | true => exact absurd (List.elem_iff.mp hco) this
  rw [hcount, hsplit, h1, h2, List.nil_append, List.length_drop, hperm.length_eq]

/-- The registry after one completed reconcile cycle for `app`: every
`deployContainer` call succeeds and registers one container supplied (in
order) by `fresh` — the containers the runtime would hand back — and every
`stopContainer` call succeeds and deletes that container id from the
registry. -/
def applyCycle (s : List NosanaContainer) (app : KubeLiteApp)
    (fresh : List NosanaContainer) : List NosanaContainer :=
  let ops := reconcileApp app (getContainersByApp s app.name)
  let stopIds := ops.stops.map (fun c => c.id)
  s.filter (fun c => !(stopIds.contains c.id)) ++ fresh.take ops.creates

/-- Selecting an application's containers distributes over registry append. -/
lemma getContainersByApp_append (a b : List NosanaContainer) (name : String) :
    getContainersByApp (a ++ b) name =
      getContainersByApp a name ++ getContainersByApp b name :=
  List.filter_append a b

/-- **C2.** If one reconcile cycle for `app` runs to completion with every
corrective `deployContainer`/`stopContainer` call succeeding, and neither
the desired spec nor the registry changes in between, then the immediately
following reconcile cycle issues zero corrective runtime calls (no creates
and no stops).  `fresh` supplies the containers the runtime hands back for
the creates: they carry the target application's label (as
`deployContainer` guarantees) and ids new to the registry. -/
theorem reconcile_second_cycle_is_noop (s fresh : List NosanaContainer)
    (app : KubeLiteApp)
    (hids : ((s ++ fresh).map (fun c => c.id)).Nodup)
    (hlen : (reconcileApp app (getContainersByApp s app.name)).creates ≤ fresh.length)
    (hlab : ∀ c ∈ fresh, getLabel c.labels "kubelite.app" = some app.name) :
    reconcileApp app (getContainersByApp (applyCycle s app fresh) app.name) =
      { creates := 0, stops := [] } := by
  have hsid : (s.map (fun c => c.id)).Nodup := by
    rw [List.map_append] at hids
    exact (List.nodup_append.mp hids).1
  set A := getContainersByApp s app.name with hA
  have hAnd : (A.map (fun c => c.id)).Nodup := by
    have hsubl : A.Sublist s := List.filter_sublist s
    exact (hsubl.map (fun c => c.id)).nodup hsid
  apply reconcileApp_in_sync
  rcases Nat.lt_trichotomy A.length app.replicas with hcase | hcase | hcase
  · have hops := reconcileApp_scale_up app A hcase
    rw [hops] at hlen
    have hlen' : app.replicas - A.length ≤ fresh.length := hlen
    have happ : applyCycle s app fresh =
        s ++ fresh.take (app.replicas - A.length) := by
      unfold applyCycle
      rw [← hA, hops]
      simp
    have htake : getContainersByApp (fresh.take (app.replicas - A.length)) app.name =
        fresh.take (app.replicas - A.length) := by
      unfold getContainersByApp
      apply List.filter_eq_self.mpr
      intro c hc
      rw [hlab c (List.mem_of_mem_take hc)]
      exact beq_self_eq_true _
    rw [happ, getContainersByApp_append, ← hA, htake, List.length_append,
      List.length_take, Nat.min_eq_left hlen']
    omega
  · have hops := reconcileApp_in_sync app A hcase
    have happ : applyCycle s app fresh = s := by
      unfold applyCycle
      rw [← hA, hops]
      simp
    rw [happ, ← hA]
    exact hcase
  · have hops := reconcileApp_scale_down app A hcase
    have happ : applyCycle s app fresh =
        s.filter (fun c =>
          !((((sortByCreatedAt A).take (A.length - app.replicas)).map
              (fun c => c.id)).contains c.id)) := by
      unfold applyCycle
      rw [← hA, hops]
      simp
    rw [happ, getContainersByApp_filter, ← hA,
      length_filter_remove_sorted_take A (A.length - app.replicas) hAnd]
    omega

/-- Witness for C2: starting from an empty registry, a cycle for the
two-replica application creates two labelled containers; the second cycle
issues zero corrective calls. -/
theorem reconcile_second_cycle_is_noop_witness :
    (((([] : List NosanaContainer) ++ [demoOldest, demoMiddle]).map
        (fun c => c.id)).Nodup ∧
     (reconcileApp demoApp (getContainersByApp [] demoApp.name)).creates ≤
       ([demoOldest, demoMiddle] : List NosanaContainer).length ∧
     (∀ c ∈ ([demoOldest, demoMiddle] : List NosanaContainer),
       getLabel c.labels "kubelite.app" = some demoApp.name)) ∧
    reconcileApp demoApp
        (getContainersByApp (applyCycle [] demoApp [demoOldest, demoMiddle])
          demoApp.name) =
      { creates := 0, stops := [] } :=
  ⟨⟨by decide, by decide, by decide⟩,
   reconcile_second_cycle_is_noop [] [demoOldest, demoMiddle] demoApp
     (by decide) (by decide) (by decide)⟩

/-- Looking up the key just written by `setLabel` yields the written value. -/
lemma getLabel_setLabel_self (ls : List (String × String)) (k v : String) :
    getLabel (setLabel ls k v) k = some v := by
  unfold getLabel setLabel
  induction ls with
  | nil => simp
  | cons p ps ih =>
    by_cases hp : p.1 = k
    · simp only [List.filter_cons, bne_iff_ne, ne_eq, hp, not_true_eq_false,
        if_false, decide_not]
      simp [hp]
    · simp only [List.filter_cons, bne_iff_ne, ne_eq, hp, not_false_eq_true,
        if_true, decide_not]
      simp [hp]

/-- Looking up any other key after `setLabel` is unchanged. -/
lemma getLabel_setLabel_ne (ls : List (String × String)) (k v k2 : String)
    (h : k2 ≠ k) :
    getLabel (setLabel ls k v) k2 = getLabel ls k2 := by
  have hkk2 : (k == k2) = false := beq_eq_false_iff_ne.mpr (Ne.symm h)
  unfold getLabel setLabel
  induction ls with
  | nil => simp [hkk2]
  | cons p ps ih =>
    by_cases hp : p.1 = k
    · have hp2 : (p.1 == k2) = false :=
        beq_eq_false_iff_ne.mpr (by rw [hp]; exact Ne.symm h)
      have hpk : (p.1 != k) = false := by simp [hp]
      simpa [List.filter_cons, hpk, List.find?_cons, hp2] using ih
    · have hpk : (p.1 != k) = true := by simp [hp]
      by_cases hq : p.1 = k2
      · have hq2 : (p.1 == k2) = true := by simp [hq]
        simp [List.filter_cons, hpk, List.find?_cons, hq2]
      · have hq2 : (p.1 == k2) = false := by simp [hq]
        simpa [List.filter_cons, hpk, List.find?_cons, hq2] using ih

/-- The containers a reconcile cycle stops all come from the observed set. -/
lemma reconcileApp_stops_subset (app : KubeLiteApp) (cs : List NosanaContainer) :
    ∀ c ∈ (reconcileApp app cs).stops, c ∈ cs := by
  intro c hc
  rcases Nat.lt_trichotomy cs.length app.replicas with h | h | h
  · rw [reconcileApp_scale_up app cs h] at hc
    simp at hc
  · rw [reconcileApp_in_sync app cs h] at hc
    simp at hc
  · rw [reconcileApp_scale_down app cs h] at hc
    exact (List.perm_insertionSort createdLE cs).mem_iff.mp (List.mem_of_mem_take hc)

/-- Containers selected by app name carry that app label. -/
lemma mem_getContainersByApp (s : List NosanaContainer) (name : String) :
    ∀ c ∈ getContainersByApp s name,
      getLabel c.labels "kubelite.app" = some name ∧ c ∈ s := by
  intro c hc
  unfold getContainersByApp at hc
  refine ⟨?_, List.mem_of_mem_filter hc⟩
  have := List.of_mem_filter hc
  exact beq_iff_eq.mp this

/-- **C3.** Every container created by `deployContainer` carries the
kubelite.managed marker and the kubelite.app label naming the owning
application (whatever caller labels were supplied); every stop request a
reconcile cycle issues targets a container whose kubelite.app label equals
the target application's name, and every container `deleteApp` stops
(`deleteApp` stops exactly `getContainersByApp s name`) likewise carries the
target's app label; unlabelled containers are never counted: whatever
reconciliation or deletion counts or stops carries both labels, granted the
registry invariant that every registered container carries the managed
marker (all registry entry points attach or filter on it). -/
theorem reconcile_touches_only_managed_labeled (user : List (String × String))
    (name : String) (s : List NosanaContainer) (app : KubeLiteApp)
    (hmanaged : ∀ c ∈ s, getLabel c.labels "kubelite.managed" = some "true") :
    (getLabel (deployLabels user name) "kubelite.managed" = some "true" ∧
     getLabel (deployLabels user name) "kubelite.app" = some name) ∧
    (∀ c ∈ (reconcileApp app (getContainersByApp s app.name)).stops,
       getLabel c.labels "kubelite.app" = some app.name ∧
       getLabel c.labels "kubelite.managed" = some "true") ∧
    (∀ c ∈ getContainersByApp s name,
       getLabel c.labels "kubelite.app" = some name ∧
       getLabel c.labels "kubelite.managed" = some "true") := by
  refine ⟨⟨?_, ?_⟩, ?_, ?_⟩
  · unfold deployLabels
    rw [getLabel_setLabel_ne _ _ _ _ (by decide), getLabel_setLabel_self]
  · unfold deployLabels
    rw [getLabel_setLabel_self]
  · intro c hc
    have hcA := reconcileApp_stops_subset app (getContainersByApp s app.name) c hc
    have hlab := mem_getContainersByApp s app.name c hcA
    exact ⟨hlab.1, hmanaged c hlab.2⟩
  · intro c hc
    have hlab := mem_getContainersByApp s name c hc
    exact ⟨hlab.1, hmanaged c hlab.2⟩

/-- Witness for C3 at a concrete caller label set, registry and target. -/
theorem reconcile_touches_only_managed_labeled_witness :
    (∀ c ∈ ([demoOldest, demoMiddle] : List NosanaContainer),
      getLabel c.labels "kubelite.managed" = some "true") ∧
    ((getLabel (deployLabels [("team", "infra")] "web") "kubelite.managed" = some "true" ∧
      getLabel (deployLabels [("team", "infra")] "web") "kubelite.app" = some "web") ∧
     (∀ c ∈ (reconcileApp demoApp
         (getContainersByApp [demoOldest, demoMiddle] demoApp.name)).stops,
        getLabel c.labels "kubelite.app" = some demoApp.name ∧
        getLabel c.labels "kubelite.managed" = some "true") ∧
     (∀ c ∈ getContainersByApp [demoOldest, demoMiddle] "web",
        getLabel c.labels "kubelite.app" = some "web" ∧
        getLabel c.labels "kubelite.managed" = some "true")) :=
  ⟨by decide,
   reconcile_touches_only_managed_labeled [("team", "infra")] "web"
     [demoOldest, demoMiddle] demoApp (by decide)⟩

/-- The `ParsedCommand` interface produced by the command parser and
consumed by the state manager.  `intent` is kept as the raw string the
parser produced (the TypeScript union is not checked at runtime), optional
fields are `Option`s, `confidence` is a rational (default only a Lean
convenience for writing literals). -/
structure ParsedCommand where
  intent : String
  appName : Option String := none
  image : Option String := none
  replicas : Option Nat := none
  ports : Option (List Nat) := none
  confidence : ℚ := 1
  reasoning : Option String := none
deriving DecidableEq

/-- JS `x || d` for an optional number: absent and `0` are falsy. -/
def jsOrNat (x : Option Nat) (d : Nat) : Nat :=
  match x with
  | none => d
  | some n => if n = 0 then d else n

/-- JS falsy test for an optional string: absent or empty. -/
def strFalsy (x : Option String) : Bool :=
  match x with
  | none => true
  | some s => s == ""

/-- Result record of `StateManager.applyCommand` and its handlers. -/
structure ApplyResult where
  success : Bool
  message : String
  app : Option KubeLiteApp := none
deriving DecidableEq

/-- JS `Map.get` on the applications map (an insertion-ordered
association list). -/
def mapGet (m : List (String × KubeLiteApp)) (k : String) : Option KubeLiteApp :=
  (m.find? (fun p => p.1 == k)).map (fun p => p.2)

/-- JS `Map.set`: overwrite in place when the key exists, else append. -/
def mapSet (m : List (String × KubeLiteApp)) (k : String) (v : KubeLiteApp) :
    List (String × KubeLiteApp) :=
  if m.any (fun p => p.1 == k) then
    m.map (fun p => if p.1 == k then (k, v) else p)
  else
    m ++ [(k, v)]

/-- JS `Map.delete`. -/
def mapDelete (m : List (String × KubeLiteApp)) (k : String) :
    List (String × KubeLiteApp) :=
  m.filter (fun p => p.1 != k)

/-- `StateManager.handleDeploy`: requires (JS-truthy) name and image;
replicas default to 1 when absent (or 0, which is JS-falsy); ports default
to the empty list; upserts the entry. -/
def handleDeploy (m : List (String × KubeLiteApp)) (command : ParsedCommand) :
    ApplyResult × List (String × KubeLiteApp) :=
  if strFalsy command.appName || strFalsy command.image then
    ({ success := false,
       message := "Deploy command requires both app name and image" }, m)
  else
    let n := command.appName.getD ""
    let i := command.image.getD ""
    let app : KubeLiteApp :=
      { name := n, image := i, replicas := jsOrNat command.replicas 1,
        ports := some (command.ports.getD []) }
    ({ success := true,
       message := "Created deployment for " ++ app.name ++ " with " ++
         toString app.replicas ++ " replica(s) using image " ++ app.image,
       app := some app }, mapSet m n app)

/-- `StateManager.handleScale`: requires a truthy name and a present (not
`undefined`) replica count; fails when the application is unknown;
otherwise overwrites the replica count. -/
def handleScale (m : List (String × KubeLiteApp)) (command : ParsedCommand) :
    ApplyResult × List (String × KubeLiteApp) :=
  if strFalsy command.appName || command.replicas == none then
    ({ success := false,
       message := "Scale command requires both app name and replica count" }, m)
  else
    let n := command.appName.getD ""
    let r := command.replicas.getD 0
    match mapGet m n with
    | none =>
      ({ success := false,
         message := "Application " ++ n ++ " not found. Deploy it first." }, m)
    | some existingApp =>
      let oldReplicas := existingApp.replicas
      let updated := { existingApp with replicas := r }
      let action :=
        if oldReplicas < r then "scaled up"
        else if r < oldReplicas then "scaled down"
        else "maintained"
      ({ success := true,
         message := updated.name ++ " " ++ action ++ " from " ++
           toString oldReplicas ++ " to " ++ toString r ++ " replica(s)",
         app := some updated }, mapSet m n updated)

/-- `StateManager.handleDelete`: requires a truthy name; fails when the
application is unknown; otherwise removes the entry. -/
def handleDelete (m : List (String × KubeLiteApp)) (command : ParsedCommand) :
    ApplyResult × List (String × KubeLiteApp) :=
  if strFalsy command.appName then
    ({ success := false, message := "Delete command requires an app name" }, m)
  else
    let n := command.appName.getD ""
    match mapGet m n with
    | none =>
      ({ success := false, message := "Application " ++ n ++ " not found" }, m)
    | some _ =>
      ({ success := true, message := "Deleted application " ++ n }, mapDelete m n)

/-- `StateManager.handleStatus`: read-only enumeration of the store. -/
def handleStatus (m : List (String × KubeLiteApp)) : ApplyResult :=
  if m.length = 0 then
    { success := true, message := "No applications currently defined" }
  else
    { success := true,
      message := "Current applications:\n" ++
        String.intercalate "\n" (m.map (fun p =>
          "  - " ++ p.2.name ++ ": " ++ toString p.2.replicas ++
            " replica(s) of " ++ p.2.image)) }

/-- `StateManager.applyCommand`: dispatch on the intent string; unknown
intents (including the never-handled `stop` and `help`) fail without
touching the store. -/
def applyCommand (m : List (String × KubeLiteApp)) (command : ParsedCommand) :
    ApplyResult × List (String × KubeLiteApp) :=
  if command.intent == "deploy" then handleDeploy m command
  else if command.intent == "scale" then handleScale m command
  else if command.intent == "delete" then handleDelete m command
  else if command.intent == "status" then (handleStatus m, m)
  else
    ({ success := false,
       message := "Unknown command intent: " ++ command.intent }, m)

/-- Reading back the key written by `mapSet` yields the written value. -/
lemma mapGet_mapSet_self (m : List (String × KubeLiteApp)) (k : String)
    (v : KubeLiteApp) : mapGet (mapSet m k v) k = some v := by
  unfold mapGet mapSet
  induction m with
  | nil => simp
  | cons p ps ih =>
    by_cases hp : p.1 = k
    · rw [if_pos (by simp [List.any_cons, hp])]
      simp [List.map_cons, hp, List.find?_cons]
    · by_cases hps : ps.any (fun p => p.1 == k)
      · rw [if_pos hps] at ih
        rw [if_pos (by simp [List.any_cons, hps])]
        simpa [List.map_cons, hp, List.find?_cons] using ih
      · rw [if_neg hps] at ih
        rw [if_neg (by simp [List.any_cons, hp, hps])]
        simpa [List.find?_cons, hp] using ih

/-- **C4 (amended).** For every deploy command carrying a nonempty name `n`
and a nonempty image `i`, and whose requested replica count, when present,
is nonzero, `applyCommand` succeeds and afterwards the store maps `n` to an
application with image `i`, replica count equal to the requested count (1
when absent), ports defaulting to the empty list, fully replacing any prior
spec stored under `n` (the conclusion holds for every prior store `m`). -/
theorem applyCommand_deploy_upserts (m : List (String × KubeLiteApp))
    (cmd : ParsedCommand) (n i : String)
    (hint : cmd.intent = "deploy") (hn : cmd.appName = some n) (hn2 : n ≠ "")
    (hi : cmd.image = some i) (hi2 : i ≠ "") (hr : cmd.replicas ≠ some 0) :
    (applyCommand m cmd).1.success = true ∧
    mapGet (applyCommand m cmd).2 n =
      some { name := n, image := i, replicas := cmd.replicas.getD 1,
             ports := some (cmd.ports.getD []), autoscaling := none } := by
  have hfn : strFalsy cmd.appName = false := by
    rw [hn]
    simpa [strFalsy] using hn2
  have hfi : strFalsy cmd.image = false := by
    rw [hi]
    simpa [strFalsy] using hi2
  have hjs : jsOrNat cmd.replicas 1 = cmd.replicas.getD 1 := by
    cases hrr : cmd.replicas with
    | none => rfl
    | some r =>
      have h0 : r ≠ 0 := by
        intro h0
        rw [h0] at hrr
        exact hr hrr
      simp [jsOrNat, h0]
  unfold applyCommand
  rw [hint]
  simp only [beq_self_eq_true, if_true]
  unfold handleDeploy
  rw [hfn, hfi]
  simp only [Bool.or_self, Bool.false_or, if_false, Bool.false_eq_true]
  refine ⟨by simp, ?_⟩
  rw [hn]
  simp only [Option.getD_some]
  rw [mapGet_mapSet_self]
  simp [hn, hi, hjs]

/-- Counterexample to C4 as stated: a deploy carrying name, image and a
requested replica count of 0 succeeds but stores replica count 1, not the
requested 0 (JS `x || 1` treats 0 as absent); and a deploy carrying the
empty string as its name does not succeed at all. -/
theorem applyCommand_deploy_counterexample :
    ((mapGet (applyCommand []
        { intent := "deploy", appName := some "web", image := some "nginx",
          replicas := some 0 }).2 "web").map (fun a => a.replicas) ≠
      some 0) ∧
    ((mapGet (applyCommand []
        { intent := "deploy", appName := some "web", image := some "nginx",
          replicas := some 0 }).2 "web").map (fun a => a.replicas) =
      some 1) ∧
    (applyCommand []
        { intent := "deploy", appName := some "", image := some "nginx" }
      ).1.success = false := by
  refine ⟨by decide, by decide, by decide⟩

/-- Witness for C4 (amended): deploying web/nginx with 3 replicas over a
prior spec stored under the same name replaces it. -/
theorem applyCommand_deploy_upserts_witness :
    (applyCommand [("web", { name := "web", image := "redis", replicas := 5 })]
        { intent := "deploy", appName := some "web", image := some "nginx",
          replicas := some 3, ports := some [80] }).1.success = true ∧
    mapGet (applyCommand
        [("web", { name := "web", image := "redis", replicas := 5 })]
        { intent := "deploy", appName := some "web", image := some "nginx",
          replicas := some 3, ports := some [80] }).2 "web" =
      some { name := "web", image := "nginx", replicas := 3,
             ports := some [80], autoscaling := none } :=
  applyCommand_deploy_upserts
    [("web", { name := "web", image := "redis", replicas := 5 })]
    { intent := "deploy", appName := some "web", image := some "nginx",
      replicas := some 3, ports := some [80] }
    "web" "nginx" rfl rfl (by decide) rfl (by decide) (by decide)

/-- A failed `handleDeploy` does not touch the store. -/
lemma handleDeploy_failure (m : List (String × KubeLiteApp))
    (cmd : ParsedCommand) (h : (handleDeploy m cmd).1.success = false) :
    (handleDeploy m cmd).2 = m := by
  unfold handleDeploy at h ⊢
  by_cases hc : (strFalsy cmd.appName || strFalsy cmd.image) = true
  · rw [if_pos hc]
  · rw [if_neg hc] at h
    simp at h

/-- A failed `handleScale` does not touch the store. -/
lemma handleScale_failure (m : List (String × KubeLiteApp))
    (cmd : ParsedCommand) (h : (handleScale m cmd).1.success = false) :
    (handleScale m cmd).2 = m := by
  unfold handleScale at h ⊢
  by_cases hc : (strFalsy cmd.appName || cmd.replicas == none) = true
  · rw [if_pos hc]
  · rw [if_neg hc] at h ⊢
    dsimp only at h ⊢
    cases hg : mapGet m (cmd.appName.getD "") with
    | none => rfl
    | some a =>
      rw [hg] at h
      simp at h

/-- A failed `handleDelete` does not touch the store. -/
lemma handleDelete_failure (m : List (String × KubeLiteApp))
    (cmd : ParsedCommand) (h : (handleDelete m cmd).1.success = false) :
    (handleDelete m cmd).2 = m := by
  unfold handleDelete at h ⊢
  by_cases hc : strFalsy cmd.appName = true
  · rw [if_pos hc]
  · rw [if_neg hc] at h ⊢
    dsimp only at h ⊢
    cases hg : mapGet m (cmd.appName.getD "") with
    | none => rfl
    | some a =>
      rw [hg] at h
      simp at h

/-- **C10.** Whenever `applyCommand` reports `success = false` — missing
name or image on deploy, missing name or replica count on scale, unknown
application on scale or delete, missing name on delete, or an unrecognized
intent — the applications map is returned exactly as it was: no entry is
added, removed, or modified. -/
theorem applyCommand_failure_preserves_store (m : List (String × KubeLiteApp))
    (cmd : ParsedCommand) (h : (applyCommand m cmd).1.success = false) :
    (applyCommand m cmd).2 = m := by
  unfold applyCommand at h ⊢
  split_ifs at h ⊢ with h1 h2 h3 h4
  · exact handleDeploy_failure m cmd h
  · exact handleScale_failure m cmd h
  · exact handleDelete_failure m cmd h
  · rfl
  · rfl

/-- Witness for C10: scaling an unknown application fails and leaves the
(empty) store unchanged. -/
theorem applyCommand_failure_preserves_store_witness :
    (applyCommand []
        { intent := "scale", appName := some "x", replicas := some 2 }
      ).1.success = false ∧
    (applyCommand []
        { intent := "scale", appName := some "x", replicas := some 2 }).2 = [] :=
  ⟨by decide,
   applyCommand_failure_preserves_store []
     { intent := "scale", appName := some "x", replicas := some 2 } (by decide)⟩

/-- One entry of `spec.container.ports` in a manifest. -/
structure ManifestPort where
  containerPort : Nat
  protocol : Option String := none
deriving DecidableEq

/-- The `spec.container` part of a manifest. -/
structure ManifestContainer where
  image : String
  ports : Option (List ManifestPort) := none
deriving DecidableEq

/-- The `metadata` part of a manifest. -/
structure ManifestMetadata where
  name : String
deriving DecidableEq

/-- The `spec` part of a manifest. -/
structure ManifestSpec where
  replicas : Nat
  container : ManifestContainer
  autoscaling : Option AutoscalingConfig := none
deriving DecidableEq

/-- The `KubeLiteManifest` interface: the structured document the external
YAML layer (`js-yaml`, spec section 6: an excluded collaborator assumed to
be a faithful serialization) dumps and reloads unchanged.  The YAML text
layer is therefore modelled as the identity on manifest values, and the
round trip reduces to the two repository functions `appToYaml` (the
manifest construction before `yaml.dump`) and
`parseFromString`/`manifestToApp` (the conversion after `yaml.load`). -/
structure KubeLiteManifest where
  apiVersion : String
  kind : String
  metadata : ManifestMetadata
  spec : ManifestSpec
deriving DecidableEq

/-- `ManifestParser.appToYaml`, up to the external `yaml.dump`: build the
manifest record; ports are emitted (with protocol TCP) only when present
and nonempty; autoscaling is copied when present. -/
def appToManifest (app : KubeLiteApp) : KubeLiteManifest :=
  { apiVersion := "kubelite.io/v1", kind := "Application",
    metadata := { name := app.name },
    spec :=
      { replicas := app.replicas,
        container :=
          { image := app.image,
            ports :=
              match app.ports with
              | some ps =>
                if 0 < ps.length then
                  some (ps.map (fun port =>
                    { containerPort := port, protocol := some "TCP" }))
                else none
              | none => none },
        autoscaling := app.autoscaling } }

/-- `ManifestParser.parseFromString`/`manifestToApp`, after the external
`yaml.load`: validate kind, (JS-truthy) metadata.name and
spec.container.image, then build the app; `spec.replicas || 1` treats an
absent or zero count as 1; ports are mapped back to their
`containerPort`s when the ports array is present. -/
def manifestToApp (manifest : KubeLiteManifest) : Except String KubeLiteApp :=
  if manifest.kind != "Application" then
    Except.error "Invalid manifest: must be of kind Application"
  else if manifest.metadata.name == "" then
    Except.error "Invalid manifest: metadata.name is required"
  else if manifest.spec.container.image == "" then
    Except.error "Invalid manifest: spec.container.image is required"
  else
    Except.ok
      { name := manifest.metadata.name,
        image := manifest.spec.container.image,
        replicas := if manifest.spec.replicas = 0 then 1 else manifest.spec.replicas,
        ports := manifest.spec.container.ports.map (fun ps =>
          ps.map (fun p => p.containerPort)),
        autoscaling := manifest.spec.autoscaling }

/-- **C5 (amended).** For every Application whose name and image are
nonempty, whose replica count is nonzero and whose port list is not
present-but-empty, serializing to a manifest and parsing back yields the
original Application, field for field (name, image, replicas, ports, and
also autoscaling). -/
theorem manifest_round_trip (app : KubeLiteApp)
    (hname : app.name ≠ "") (himage : app.image ≠ "")
    (hreplicas : app.replicas ≠ 0) (hports : app.ports ≠ some []) :
    manifestToApp (appToManifest app) = Except.ok app := by
  obtain ⟨name, image, replicas, ports, autoscaling⟩ := app
  cases ports with
  | none =>
    simp only [appToManifest, manifestToApp]
    rw [if_neg (by simp), if_neg (by simpa using hname),
      if_neg (by simpa using himage)]
    simp [hreplicas]
  | some ps =>
    cases ps with
    | nil => exact absurd rfl hports
    | cons p ps' =>
      simp only [appToManifest, manifestToApp]
      rw [if_neg (by simp), if_neg (by simpa using hname),
        if_neg (by simpa using himage)]
      simp [hreplicas, List.map_map, Function.comp]
      exact List.map_id ps'

/-- Counterexample to C5 as stated: an Application with replica count 0
parses back with replica count 1 (`spec.replicas || 1` treats 0 as
absent); an Application with a present-but-empty port list parses back
with no port list at all; and an Application with an empty name does not
round-trip (the parser rejects the manifest). -/
theorem manifest_round_trip_counterexample :
    (manifestToApp (appToManifest
        { name := "web", image := "nginx:latest", replicas := 0 }) =
      Except.ok { name := "web", image := "nginx:latest", replicas := 1 } ∧
     ({ name := "web", image := "nginx:latest", replicas := 1 } : KubeLiteApp) ≠
       { name := "web", image := "nginx:latest", replicas := 0 }) ∧
    (manifestToApp (appToManifest
        { name := "web", image := "nginx:latest", replicas := 2,
          ports := some [] }) =
      Except.ok { name := "web", image := "nginx:latest", replicas := 2,
                  ports := none } ∧
     (some ([] : List Nat)) ≠ (none : Option (List Nat))) ∧
    manifestToApp (appToManifest
        { name := "", image := "nginx:latest", replicas := 2 }) =
      Except.error "Invalid manifest: metadata.name is required" := by
  refine ⟨⟨rfl, by decide⟩, ⟨rfl, by decide⟩, rfl⟩

/-- Witness for C5 (amended) at the spec's own example:
name web, image nginx:latest, 2 replicas, ports [80]. -/
theorem manifest_round_trip_witness :
    manifestToApp (appToManifest
        { name := "web", image := "nginx:latest", replicas := 2,
          ports := some [80] }) =
      Except.ok { name := "web", image := "nginx:latest", replicas := 2,
                  ports := some [80] } :=
  manifest_round_trip
    { name := "web", image := "nginx:latest", replicas := 2, ports := some [80] }
    (by decide) (by decide) (by decide) (by decide)

/-- JS `toLowerCase`, over the ASCII range the sources use (kept
kernel-computable, unlike `String.toLower`). -/
def strToLower (s : String) : String :=
  String.mk (s.toList.map Char.toLower)

/-- `needle` occurs as a contiguous run of `hay`. -/
def listIsInfix (needle : List Char) : List Char → Bool
  | [] => needle.isEmpty
  | c :: cs => needle.isPrefixOf (c :: cs) || listIsInfix needle cs

/-- JS `String.prototype.includes`: substring containment. -/
def containsSubstr (hay needle : String) : Bool :=
  listIsInfix needle.toList hay.toList

/-- Rule 1 predicate on the lowercased logs: pull and (failed or error). -/
def pullFailureMatch (l : String) : Bool :=
  containsSubstr l "pull" && (containsSubstr l "failed" || containsSubstr l "error")

/-- Rule 2 predicate: port and (already in use or bind). -/
def portConflictMatch (l : String) : Bool :=
  containsSubstr l "port" && (containsSubstr l "already in use" || containsSubstr l "bind")

/-- Rule 3 predicate: out of memory, oom, or killed. -/
def oomMatch (l : String) : Bool :=
  containsSubstr l "out of memory" || containsSubstr l "oom" || containsSubstr l "killed"

/-- Rule 4 predicate: connection and (refused or timeout). -/
def connectionMatch (l : String) : Bool :=
  containsSubstr l "connection" && (containsSubstr l "refused" || containsSubstr l "timeout")

/-- Rule 5 predicate: permission denied or access denied. -/
def permissionMatch (l : String) : Bool :=
  containsSubstr l "permission denied" || containsSubstr l "access denied"

/-- Rule 6 predicate: not found, no such file, or command not found. -/
def missingDepMatch (l : String) : Bool :=
  containsSubstr l "not found" || containsSubstr l "no such file" ||
    containsSubstr l "command not found"

/-- Rule 7 predicate: config and (invalid or missing). -/
def configMatch (l : String) : Bool :=
  containsSubstr l "config" && (containsSubstr l "invalid" || containsSubstr l "missing")

/-- Rule 8 predicate: network or dns. -/
def networkMatch (l : String) : Bool :=
  containsSubstr l "network" || containsSubstr l "dns"

/-- Root cause and confidence returned by a log analysis.  Only these two
fields are modelled: the `explanation` and `suggestedFix` fields of the
source are fixed prose constants attached one-to-one to each rule and are
elided. -/
structure RuleAnalysis where
  rootCause : String
  confidence : ℚ
deriving DecidableEq

/-- `FailureAnalyzer.performRuleBasedLogAnalysis`: lowercase the logs and
take the first matching rule of the fixed chain, with the generic fallback
last. -/
def performRuleBasedLogAnalysis (logs : String) : RuleAnalysis :=
  let lowerLogs := strToLower logs
  if pullFailureMatch lowerLogs then
    { rootCause := "Image Pull Failed", confidence := 90/100 }
  else if portConflictMatch lowerLogs then
    { rootCause := "Port Already In Use", confidence := 92/100 }
  else if oomMatch lowerLogs then
    { rootCause := "Out of Memory", confidence := 95/100 }
  else if connectionMatch lowerLogs then
    { rootCause := "Database Connection Failed", confidence := 85/100 }
  else if permissionMatch lowerLogs then
    { rootCause := "Permission Denied", confidence := 88/100 }
  else if missingDepMatch lowerLogs then
    { rootCause := "Missing Dependencies", confidence := 82/100 }
  else if configMatch lowerLogs then
    { rootCause := "Configuration Error", confidence := 80/100 }
  else if networkMatch lowerLogs then
    { rootCause := "Network Connectivity Issue", confidence := 75/100 }
  else
    { rootCause := "Container Startup Failed", confidence := 50/100 }

/-- Modelled from the spec (section 4.3): the ordered rule table — each
entry a (lowercased-log predicate, root-cause label, fixed confidence)
tuple in the spec's fixed priority order, the default rule last. -/
def specFallbackRules : List ((String → Bool) × String × ℚ) :=
  [(pullFailureMatch, "Image Pull Failed", 90/100),
   (portConflictMatch, "Port Already In Use", 92/100),
   (oomMatch, "Out of Memory", 95/100),
   (connectionMatch, "Database Connection Failed", 85/100),
   (permissionMatch, "Permission Denied", 88/100),
   (missingDepMatch, "Missing Dependencies", 82/100),
   (configMatch, "Configuration Error", 80/100),
   (networkMatch, "Network Connectivity Issue", 75/100),
   (fun _ => true, "Container Startup Failed", 50/100)]

/-- Modelled from the spec: first-match-wins evaluation of the ordered
rule table on the lowercased logs. -/
def applySpecRules (logs : String) : RuleAnalysis :=
  match specFallbackRules.find? (fun rule => rule.1 (strToLower logs)) with
  | some rule => { rootCause := rule.2.1, confidence := rule.2.2 }
  | none => { rootCause := "", confidence := 0 }

/-- **C6 (amended).** The rule-based fallback classifier is exactly
first-match-wins evaluation of the nine rules in the spec's fixed order
with the spec's confidences; consequently, every log text containing both
permission denied and out of memory — and not matching the two
higher-priority rules (pull-failure and port-conflict) — classifies as
out-of-memory with confidence 0.95. -/
theorem rule_based_analysis_first_match :
    (∀ logs, performRuleBasedLogAnalysis logs = applySpecRules logs) ∧
    (∀ logs, pullFailureMatch (strToLower logs) = false →
      portConflictMatch (strToLower logs) = false →
      containsSubstr (strToLower logs) "permission denied" = true →
      containsSubstr (strToLower logs) "out of memory" = true →
      performRuleBasedLogAnalysis logs =
        { rootCause := "Out of Memory", confidence := 95/100 }) := by
  constructor
  · intro logs
    simp only [performRuleBasedLogAnalysis, applySpecRules, specFallbackRules]
    cases h1 : pullFailureMatch (strToLower logs) with
    | true => simp [List.find?_cons, h1]
    | false =>
      cases h2 : portConflictMatch (strToLower logs) with
      | true => simp [List.find?_cons, h1, h2]
      | false =>
        cases h3 : oomMatch (strToLower logs) with
        | true => simp [List.find?_cons, h1, h2, h3]
        | false =>
          cases h4 : connectionMatch (strToLower logs) with
          | true => simp [List.find?_cons, h1, h2, h3, h4]
          | false =>
            cases h5 : permissionMatch (strToLower logs) with
            | true => simp [List.find?_cons, h1, h2, h3, h4, h5]
            | false =>
              cases h6 : missingDepMatch (strToLower logs) with
              | true => simp [List.find?_cons, h1, h2, h3, h4, h5, h6]
              | false =>
                cases h7 : configMatch (strToLower logs) with
                | true => simp [List.find?_cons, h1, h2, h3, h4, h5, h6, h7]
                | false =>
                  cases h8 : networkMatch (strToLower logs) with
                  | true => simp [List.find?_cons, h1, h2, h3, h4, h5, h6, h7, h8]
                  | false => simp [List.find?_cons, h1, h2, h3, h4, h5, h6, h7, h8]
  · intro logs h1 h2 _ hoom
    have h3 : oomMatch (strToLower logs) = true := by
      unfold oomMatch
      rw [hoom]
      rfl
    simp [performRuleBasedLogAnalysis, h1, h2, h3]

/-- Counterexample to C6 as stated: a log containing both permission
denied and out of memory but also matching the higher-priority
pull-failure rule classifies as Image Pull Failed with confidence 0.90,
not as out-of-memory. -/
theorem rule_based_analysis_counterexample :
    containsSubstr
        (strToLower "error: failed to pull image: out of memory: permission denied")
        "permission denied" = true ∧
    containsSubstr
        (strToLower "error: failed to pull image: out of memory: permission denied")
        "out of memory" = true ∧
    (performRuleBasedLogAnalysis
        "error: failed to pull image: out of memory: permission denied").rootCause =
      "Image Pull Failed" ∧
    (performRuleBasedLogAnalysis
        "error: failed to pull image: out of memory: permission denied").confidence =
      90/100 ∧
    ("Image Pull Failed" : String) ≠ "Out of Memory" := by
  refine ⟨rfl, rfl, rfl, rfl, by decide⟩

/-- Witness for C6 (amended) at a log matching neither of the two
higher-priority rules. -/
theorem rule_based_analysis_first_match_witness :
    (pullFailureMatch (strToLower "fatal: out of memory: permission denied") = false ∧
     portConflictMatch (strToLower "fatal: out of memory: permission denied") = false ∧
     containsSubstr (strToLower "fatal: out of memory: permission denied")
       "permission denied" = true ∧
     containsSubstr (strToLower "fatal: out of memory: permission denied")
       "out of memory" = true) ∧
    performRuleBasedLogAnalysis "fatal: out of memory: permission denied" =
      { rootCause := "Out of Memory", confidence := 95/100 } :=
  ⟨⟨rfl, rfl, rfl, rfl⟩,
   rule_based_analysis_first_match.2 "fatal: out of memory: permission denied"
     rfl rfl rfl rfl⟩

/-- The raw object obtained by `JSON.parse` from the primary LLM tier of
the command parser: every field may be absent. -/
structure RawParsed where
  intent : Option String := none
  appName : Option String := none
  image : Option String := none
  replicas : Option Nat := none
  ports : Option (List Nat) := none
  confidence : Option ℚ := none
  reasoning : Option String := none
deriving DecidableEq

/-- JS `x || d` for an optional string: absent and empty are falsy. -/
def jsOrStr (x : Option String) (d : String) : String :=
  match x with
  | none => d
  | some s => if s == "" then d else s

/-- JS `x || undefined` for an optional number: 0 becomes undefined. -/
def jsOrUndef (x : Option Nat) : Option Nat :=
  match x with
  | none => none
  | some n => if n = 0 then none else some n

/-- JS `x || d` for an optional rational: absent and 0 are falsy. -/
def jsOrQ (x : Option ℚ) (d : ℚ) : ℚ :=
  match x with
  | none => d
  | some q => if q = 0 then d else q

/-- The string null sentinel check of the parser:
a field equal to the string null becomes undefined. -/
def nullToUndef (x : Option String) : Option String :=
  match x with
  | none => none
  | some s => if s == "null" then none else some s

/-- Confidence sanitization in `CommandParser.parseCommand`:
max(0, min(1, upstream-or-0.5)). -/
def parserClampConfidence (c : Option ℚ) : ℚ :=
  max 0 (min 1 (jsOrQ c (1/2)))

/-- Confidence sanitization in `FailureAnalyzer.performAILogAnalysis`:
max(0, min(1, upstream-or-0.5)). -/
def analyzerClampConfidence (c : Option ℚ) : ℚ :=
  max 0 (min 1 (jsOrQ c (1/2)))

/-- The global regex replace of every non-alphanumeric character of the
image by a hyphen, used for auto-generated app names. -/
def replaceNonAlphanum (s : String) : String :=
  String.mk (s.toList.map (fun c => if c.isAlphanum then c else '-'))

/-- Modelled from the spec's wording, for comparison only: synthesizing a
name by stripping (removing) the non-alphanumeric characters of the
image. -/
def stripNonAlphanum (s : String) : String :=
  String.mk (s.toList.filter (fun c => c.isAlphanum))

/-- The raw object obtained by `JSON.parse` from the primary LLM tier of
the failure analyzer (prose fields elided as in `RuleAnalysis`). -/
structure RawAnalysis where
  rootCause : Option String := none
  confidence : Option ℚ := none
deriving DecidableEq

/-- `FailureAnalyzer.performAILogAnalysis`: on a parsed LLM answer,
default the fields and clamp the confidence; on any call or parse failure
(the catch), fall back to the rule-based analysis. -/
def performAILogAnalysis (llm : Except String RawAnalysis) (logs : String) :
    RuleAnalysis :=
  match llm with
  | Except.ok analysis =>
    { rootCause := jsOrStr analysis.rootCause "Unknown failure",
      confidence := analyzerClampConfidence analysis.confidence }
  | Except.error _ => performRuleBasedLogAnalysis logs

/-- `CommandParser.parseCommand`.  The asynchronous primary tier is
abstracted by its outcome: `Except.error e` when the Ollama call threw or
no JSON object could be parsed from its output (both land in the same
catch), `Except.ok parsed` when a JSON object was parsed.  The ok branch
validates and sanitizes the fields, then auto-generates the app name for
deploy commands that carry an image but no name. -/
def parseCommand (llm : Except String RawParsed) : ParsedCommand :=
  match llm with
  | Except.error e =>
    { intent := "help", confidence := 1/10,
      reasoning := some ("Failed to parse command: " ++ e) }
  | Except.ok parsed =>
    let result : ParsedCommand :=
      { intent := jsOrStr parsed.intent "help",
        appName := nullToUndef parsed.appName,
        image := nullToUndef parsed.image,
        replicas := jsOrUndef parsed.replicas,
        ports := parsed.ports,
        confidence := parserClampConfidence parsed.confidence,
        reasoning := some (jsOrStr parsed.reasoning "LLM analysis completed") }
    if result.intent == "deploy" && strFalsy result.appName &&
        !(strFalsy result.image) then
      let newName := replaceNonAlphanum (result.image.getD "") ++ "-app"
      { result with
        appName := some newName,
        reasoning := some ((result.reasoning.getD "") ++
          " (auto-generated app name: " ++ newName ++ ")") }
    else
      result

/-- The ok branch of `parseCommand` always stores the clamped confidence. -/
lemma parseCommand_ok_confidence (r : RawParsed) :
    (parseCommand (Except.ok r)).confidence = parserClampConfidence r.confidence := by
  unfold parseCommand
  dsimp only
  split_ifs with h
  · rfl
  · rfl

/-- The parser clamp always lands in the unit interval. -/
lemma parserClampConfidence_mem_unit (c : Option ℚ) :
    0 ≤ parserClampConfidence c ∧ parserClampConfidence c ≤ 1 := by
  unfold parserClampConfidence
  exact ⟨le_max_left 0 _, max_le (by norm_num) (min_le_left 1 _)⟩

/-- The analyzer clamp always lands in the unit interval. -/
lemma analyzerClampConfidence_mem_unit (c : Option ℚ) :
    0 ≤ analyzerClampConfidence c ∧ analyzerClampConfidence c ≤ 1 := by
  unfold analyzerClampConfidence
  exact ⟨le_max_left 0 _, max_le (by norm_num) (min_le_left 1 _)⟩

/-- **C7.** Both the translator's and the classifier's primary tiers clamp
the upstream confidence into the unit interval: every returned confidence
lies in it, and an upstream confidence of 5 yields 1 while an upstream
confidence of -1 yields 0, in both components. -/
theorem upstream_confidence_is_clamped :
    (∀ r : RawParsed, 0 ≤ (parseCommand (Except.ok r)).confidence ∧
      (parseCommand (Except.ok r)).confidence ≤ 1) ∧
    (∀ a : RawAnalysis, ∀ logs,
      0 ≤ (performAILogAnalysis (Except.ok a) logs).confidence ∧
      (performAILogAnalysis (Except.ok a) logs).confidence ≤ 1) ∧
    (∀ r : RawParsed, r.confidence = some 5 →
      (parseCommand (Except.ok r)).confidence = 1) ∧
    (∀ r : RawParsed, r.confidence = some (-1) →
      (parseCommand (Except.ok r)).confidence = 0) ∧
    (∀ a : RawAnalysis, ∀ logs, a.confidence = some 5 →
      (performAILogAnalysis (Except.ok a) logs).confidence = 1) ∧
    (∀ a : RawAnalysis, ∀ logs, a.confidence = some (-1) →
      (performAILogAnalysis (Except.ok a) logs).confidence = 0) := by
  refine ⟨?_, ?_, ?_, ?_, ?_, ?_⟩
  · intro r
    rw [parseCommand_ok_confidence]
    exact parserClampConfidence_mem_unit r.confidence
  · intro a logs
    exact analyzerClampConfidence_mem_unit a.confidence
  · intro r h
    rw [parseCommand_ok_confidence, h]
    norm_num [parserClampConfidence, jsOrQ]
  · intro r h
    rw [parseCommand_ok_confidence, h]
    norm_num [parserClampConfidence, jsOrQ]
  · intro a logs h
    show analyzerClampConfidence a.confidence = 1
    rw [h]
    norm_num [analyzerClampConfidence, jsOrQ]
  · intro a logs h
    show analyzerClampConfidence a.confidence = 0
    rw [h]
    norm_num [analyzerClampConfidence, jsOrQ]

/-- Witness for C7 at upstream confidences 5 and -1 in both components. -/
theorem upstream_confidence_is_clamped_witness :
    (parseCommand (Except.ok { confidence := some 5 })).confidence = 1 ∧
    (parseCommand (Except.ok { confidence := some (-1) })).confidence = 0 ∧
    (performAILogAnalysis (Except.ok { confidence := some 5 }) "").confidence = 1 ∧
    (performAILogAnalysis (Except.ok { confidence := some (-1) }) "").confidence = 0 :=
  ⟨upstream_confidence_is_clamped.2.2.1 { confidence := some 5 } rfl,
   upstream_confidence_is_clamped.2.2.2.1 { confidence := some (-1) } rfl,
   upstream_confidence_is_clamped.2.2.2.2.1 { confidence := some 5 } "" rfl,
   upstream_confidence_is_clamped.2.2.2.2.2 { confidence := some (-1) } "" rfl⟩

/-- **C8.** `parseCommand` is a total function on primary-tier outcomes —
every input yields a command (the catch converts every thrown failure into
a value, so nothing escapes) whose confidence lies in the unit interval —
and when the primary tier fails (call error or unusable output, both
landing in the catch) the result degrades to intent help with low
confidence 0.1 (below the 0.7 clarification threshold of
`generateExplanation`) and a reasoning string explaining the failure. -/
theorem parseCommand_never_throws_degrades_to_help :
    (∀ llm : Except String RawParsed,
      0 ≤ (parseCommand llm).confidence ∧ (parseCommand llm).confidence ≤ 1) ∧
    (∀ e : String,
      parseCommand (Except.error e) =
        { intent := "help", confidence := 1/10,
          reasoning := some ("Failed to parse command: " ++ e) } ∧
      (parseCommand (Except.error e)).intent = "help" ∧
      (parseCommand (Except.error e)).confidence < 7/10) := by
  constructor
  · intro llm
    cases llm with
    | error e =>
      show (0 : ℚ) ≤ 1/10 ∧ (1/10 : ℚ) ≤ 1
      norm_num
    | ok r =>
      rw [parseCommand_ok_confidence]
      exact parserClampConfidence_mem_unit r.confidence
  · intro e
    refine ⟨rfl, rfl, ?_⟩
    show (1/10 : ℚ) < 7/10
    norm_num

/-- **C9 (amended).** For every parsed deploy result carrying an image but
no app name, post-processing synthesizes the app name by replacing every
non-alphanumeric character of the image with a hyphen and appending the
fixed suffix -app, and appends a note describing the synthesis to the
reasoning text. -/
theorem deploy_auto_generates_app_name (r : RawParsed) (img : String)
    (hintent : jsOrStr r.intent "help" = "deploy")
    (hname : strFalsy (nullToUndef r.appName) = true)
    (himg : nullToUndef r.image = some img) (himg2 : img ≠ "") :
    (parseCommand (Except.ok r)).appName =
      some (replaceNonAlphanum img ++ "-app") ∧
    (parseCommand (Except.ok r)).reasoning =
      some (jsOrStr r.reasoning "LLM analysis completed" ++
        " (auto-generated app name: " ++ (replaceNonAlphanum img ++ "-app") ++ ")") := by
  have himgf : strFalsy (nullToUndef r.image) = false := by
    rw [himg]
    simpa [strFalsy] using himg2
  unfold parseCommand
  dsimp only
  rw [hintent, hname, himgf, himg]
  simp only [beq_self_eq_true, Bool.true_and, Bool.not_false, Bool.and_true,
    if_true, Option.getD_some]
  constructor <;> trivial

/-- Counterexample to C9 as stated: the synthesis replaces each
non-alphanumeric character with a hyphen rather than stripping it; for
the image nginx:latest the code produces nginx-latest-app, while
stripping non-alphanumerics and appending the suffix would produce
nginxlatest-app. -/
theorem deploy_auto_generates_app_name_counterexample :
    (parseCommand (Except.ok
        { intent := some "deploy", image := some "nginx:latest" })).appName =
      some "nginx-latest-app" ∧
    stripNonAlphanum "nginx:latest" ++ "-app" = "nginxlatest-app" ∧
    ("nginx-latest-app" : String) ≠ "nginxlatest-app" :=
  ⟨rfl, rfl, by decide⟩

/-- Witness for C9 (amended) at a deploy result carrying image redis:7
and no app name. -/
theorem deploy_auto_generates_app_name_witness :
    (parseCommand (Except.ok
        { intent := some "deploy", image := some "redis:7" })).appName =
      some (replaceNonAlphanum "redis:7" ++ "-app") ∧
    (parseCommand (Except.ok
        { intent := some "deploy", image := some "redis:7" })).reasoning =
      some (jsOrStr none "LLM analysis completed" ++
        " (auto-generated app name: " ++ (replaceNonAlphanum "redis:7" ++ "-app") ++ ")") :=
  deploy_auto_generates_app_name
    { intent := some "deploy", image := some "redis:7" } "redis:7"
    rfl rfl rfl (by decide)
